import Mathlib

/-!
Verification of the browser event capture and correlation engine
(`mcp_playwright/main.py`, class `PlaywrightBrowserManager`).

The Python code is shallowly embedded: dictionaries become structures with
`Option` fields for optional keys, the event-loop clock is an explicit
`Timestamp` argument, browser objects (console messages, requests, responses)
become records of the values their accessors yield, regular-expression search
(`re.search`) is an abstract boolean matcher argument, and `json.loads` is an
abstract partial parser `String → Option J` over an abstract type `J` of
parsed JSON values.  Python's stable `sorted(key=...)` is modelled by
`List.insertionSort` on the timestamp key (stable, like CPython's sort), and
`sorted(..., reverse=True)` by the stable sort on the reversed key, which is
extensionally the CPython behaviour (descending by key, ties in original
order).  Python list slicing `l[:n]` (including negative `n`) is `pySlice`.
-/

/-- Timestamps from `asyncio.get_event_loop().time()`; only their linear
order matters, so they are modelled as rationals. -/
abbrev Timestamp := ℚ

/-- A header mapping, as the association list of its items. -/
abbrev Headers := List (String × String)

/-- Python `headers.get(k)`. -/
def headerGet (h : Headers) (k : String) : Option String :=
  (h.find? (fun p => p.1 == k)).map (fun p => p.2)

/-- Python `headers.get(k, d)`. -/
def headerGetD (h : Headers) (k d : String) : String :=
  (headerGet h k).getD d

/-- Whether `needle` occurs as a contiguous run inside the second list. -/
def containsRun [BEq α] (needle : List α) : List α → Bool
  | [] => needle.isEmpty
  | a :: rest => needle.isPrefixOf (a :: rest) || containsRun needle rest

/-- Python `"json" in s.lower()` — substring containment after lowercasing,
modelling Python's `in` on strings. -/
def lowerContains (sub s : String) : Bool :=
  containsRun sub.data (s.data.map Char.toLower)

/-- Python list slicing `l[:n]` for an arbitrary (possibly negative) `n`. -/
def pySlice (n : Int) (l : List α) : List α :=
  if 0 ≤ n then l.take n.toNat else l.take (l.length - (-n).toNat)

/-- Ascending order on a rational key (Python `sorted(key=f)`). -/
def keyLe (f : α → ℚ) (a b : α) : Prop := f a ≤ f b

/-- Descending order on a rational key (Python `sorted(key=f, reverse=True)`). -/
def keyGe (f : α → ℚ) (a b : α) : Prop := f b ≤ f a

instance (f : α → ℚ) : DecidableRel (keyLe f) :=
  fun a b => inferInstanceAs (Decidable (f a ≤ f b))

instance (f : α → ℚ) : DecidableRel (keyGe f) :=
  fun a b => inferInstanceAs (Decidable (f b ≤ f a))

instance (f : α → ℚ) : IsTotal α (keyLe f) := ⟨fun a b => le_total (f a) (f b)⟩

instance (f : α → ℚ) : IsTrans α (keyLe f) := ⟨fun _ _ _ h h' => le_trans h h'⟩

instance (f : α → ℚ) : IsTotal α (keyGe f) := ⟨fun a b => le_total (f b) (f a)⟩

instance (f : α → ℚ) : IsTrans α (keyGe f) := ⟨fun _ _ _ h h' => le_trans h' h⟩

/-- Python's stable ascending sort by key `f`. -/
def sortAsc (f : α → ℚ) (l : List α) : List α := l.insertionSort (keyLe f)

/-- Python's stable descending sort by key `f` (`reverse=True`). -/
def sortDesc (f : α → ℚ) (l : List α) : List α := l.insertionSort (keyGe f)

/-! ### Console messages (`_handle_console_message`, lines 161-179) -/

/-- A Playwright console-message object: each property access may raise,
modelled by `Except`. -/
structure ConsoleMsg where
  type_exc : Except String String
  text_exc : Except String String
  location_exc : Except String String

/-- An element of `self.console_logs`.  A degraded record (appended on
handler failure) has no `location` key. -/
structure LogEntry where
  type : String
  text : String
  location : Option String
  timestamp : Timestamp
deriving DecidableEq

/-- The body of the `try:` block of `_handle_console_message`: reading the
message's `type`, `text` and `location` properties, any of which may raise. -/
def buildConsoleEntry (m : ConsoleMsg) (now : Timestamp) : Except String LogEntry := do
  let t ← m.type_exc
  let x ← m.text_exc
  let loc ← m.location_exc
  pure { type := t, text := x, location := some loc, timestamp := now }

/-- Model of `_handle_console_message` (lines 161-179): append the entry; on any
exception append the degraded record
`{"type": "error", "text": "处理控制台消息时出错: " + e, "timestamp": now}`. -/
def handle_console_message (m : ConsoleMsg) (now : Timestamp) (logs : List LogEntry) :
    List LogEntry :=
  match buildConsoleEntry m now with
  | .ok e => logs ++ [e]
  | .error err =>
      logs ++ [{ type := "error", text := "处理控制台消息时出错: " ++ err,
                 location := none, timestamp := now }]

/-! ### Console-log deduplication (`get_console_logs`, lines 275-354) -/

/-- An element of the deduplicated output list.  (The optional
`stackTrace`/`args`/`page` keys copied at lines 333-335 are absent from every
entry produced by `_handle_console_message` and are omitted.) -/
structure LogGroup where
  type : String
  text : String
  location : Option String
  timestamp : Timestamp
  count : Nat
  timestamps : List Timestamp
deriving DecidableEq

/-- Starting a new group (lines 323-337). -/
def newGroup (l : LogEntry) : LogGroup :=
  { type := l.type, text := l.text, location := l.location,
    timestamp := l.timestamp, count := 1, timestamps := [l.timestamp] }

/-- A repeated message (lines 339-344): increment `count`, append the
timestamp, and rewrite the group's displayed `text` to
`f"{log.text} (重复 {count} 次)"` (the `count > 1` guard always holds here). -/
def bumpGroup (g : LogGroup) (l : LogEntry) : LogGroup :=
  { g with count := g.count + 1,
           timestamps := g.timestamps ++ [l.timestamp],
           text := l.text ++ " (重复 " ++ toString (g.count + 1) ++ " 次)" }

/-- The grouping loop of `get_console_logs` (lines 316-344): walk the
time-sorted entries keeping a current group; an entry matching the current
group's `(type, text)` is folded into it, otherwise the group is closed and a
new one starts.  Note that the comparison reads the group's `text` field,
which `bumpGroup` has rewritten. -/
def dedupLoop : Option LogGroup → List LogEntry → List LogGroup
  | none, [] => []
  | some g, [] => [g]
  | none, l :: ls => dedupLoop (some (newGroup l)) ls
  | some g, l :: ls =>
      if l.type == g.type && l.text == g.text then
        dedupLoop (some (bumpGroup g l)) ls
      else
        g :: dedupLoop (some (newGroup l)) ls

/-- Model of `get_console_logs` (lines 275-354).  The defensive `copy.deepcopy` of
each entry always succeeds on the plain records of the model, so the
safe-copy pass is the identity. -/
def get_console_logs (store : List LogEntry) (last_n : Int) : List LogGroup :=
  if store.isEmpty then []
  else
    sortAsc (fun g => g.timestamp)
      (pySlice last_n
        (sortDesc (fun g => g.timestamp)
          (dedupLoop none (sortAsc (fun l => l.timestamp) store))))

/-! ### Capture configuration and filter (`_should_capture_request`, lines 464-498) -/

/-- The configuration dict `self.request_capture_config` (lines 65-73). -/
structure CaptureConfig where
  enabled : Bool
  include_patterns : List String
  exclude_patterns : List String
  include_types : List String
  exclude_types : List String
  capture_post_data : Bool
  capture_response_body : Bool
deriving DecidableEq

/-- The initial configuration set in `__init__`. -/
def defaultCaptureConfig : CaptureConfig :=
  { enabled := true, include_patterns := [], exclude_patterns := [],
    include_types := [], exclude_types := [],
    capture_post_data := true, capture_response_body := true }

/-- A Playwright request object.  `rid` models `id(request)`. -/
structure Request where
  url : String
  method : String
  headers : Headers
  resource_type : String
  post_data : Option String
  rid : Nat
deriving DecidableEq

/-- Model of `_should_capture_request` (lines 464-498).  `m pattern url` models
`re.search(pattern, url)` returning a match (an abstract matcher, since the
regex engine is external). -/
def should_capture_request (m : String → String → Bool) (cfg : CaptureConfig)
    (req : Request) : Bool :=
  if !cfg.enabled then false
  else if !cfg.include_types.isEmpty && !cfg.include_types.contains req.resource_type then
    false
  else if cfg.exclude_types.contains req.resource_type then false
  else if !cfg.include_patterns.isEmpty && !cfg.include_patterns.any (fun p => m p req.url) then
    false
  else if cfg.exclude_patterns.any (fun p => m p req.url) then false
  else true

/-- Modelled from the spec, §4.1 Capture Filter, for comparison with
`should_capture_request`: reject when disabled; reject when `include_types`
is non-empty and the resource type is not a member; reject when the resource
type is in `exclude_types`; reject when `include_patterns` is non-empty and
the URL matches none; reject when the URL matches some `exclude_patterns`
entry; otherwise accept. -/
def shouldCaptureSpec (m : String → String → Bool) (cfg : CaptureConfig)
    (url resourceType : String) : Bool :=
  if cfg.enabled = false then false
  else if cfg.include_types ≠ [] ∧ resourceType ∉ cfg.include_types then false
  else if resourceType ∈ cfg.exclude_types then false
  else if cfg.include_patterns ≠ [] ∧ ∀ p ∈ cfg.include_patterns, m p url = false then false
  else if ∃ p ∈ cfg.exclude_patterns, m p url = true then false
  else true

/-! ### The request/response store (`_handle_request`, `_handle_response`,
`_process_json_responses`, `get_network_requests`, lines 181-455) -/

instance [DecidableEq ε] [DecidableEq α] : DecidableEq (Except ε α) := fun x y =>
  match x, y with
  | .ok a, .ok b =>
      if h : a = b then isTrue (by rw [h]) else isFalse (fun he => h (by cases he; rfl))
  | .error a, .error b =>
      if h : a = b then isTrue (by rw [h]) else isFalse (fun he => h (by cases he; rfl))
  | .ok _, .error _ => isFalse (fun he => Except.noConfusion he)
  | .error _, .ok _ => isFalse (fun he => Except.noConfusion he)

/-- The dict stored under a request's `"response"` key.  `is_json` models
presence of a truthy `"_is_json"` key; `response_obj` models the
`"_response_obj"` key, holding what `await response.text()` would yield
(the opaque deferred-body handle); `body`/`bodyText`/`body_error` model the
keys of the same names. -/
structure StoredResponse (J : Type) where
  status : Int
  statusText : String
  headers : Headers
  timestamp : Timestamp
  is_json : Bool
  response_obj : Option (Except String String)
  body : Option J
  bodyText : Option String
  body_error : Option String
deriving DecidableEq

/-- An element of `self.network_requests`. -/
structure StoredRequest (J : Type) where
  url : String
  method : String
  headers : Headers
  timestamp : Timestamp
  resourceType : String
  rid : Nat
  postData : Option String
  postDataJSON : Option J
  response : Option (StoredResponse J)
deriving DecidableEq

/-- The entry built by the `try:` block of `_handle_request` (lines 187-210).
`parse` models `json.loads` (returning `none` where it would raise).  Note
Python's truthiness: an empty `post_data` string is falsy and is skipped. -/
def mkRequestEntry (parse : String → Option J) (cfg : CaptureConfig) (now : Timestamp)
    (req : Request) : StoredRequest J :=
  let base : StoredRequest J :=
    { url := req.url, method := req.method, headers := req.headers, timestamp := now,
      resourceType := req.resource_type, rid := req.rid,
      postData := none, postDataJSON := none, response := none }
  match req.post_data with
  | none => base
  | some pd =>
      if cfg.capture_post_data && pd != "" then
        let withPd := { base with postData := some pd }
        if lowerContains "json" (headerGetD req.headers "content-type" "") then
          match parse pd with
          | some j => { withPd with postDataJSON := some j }
          | none => withPd
        else withPd
      else base

/-- Model of `_handle_request` (lines 181-220): filter, then append the new entry.
(On the plain records of the model the entry construction cannot raise, so
the `except` branch of lines 212-220 is unreachable.) -/
def handle_request (parse : String → Option J) (m : String → String → Bool)
    (cfg : CaptureConfig) (now : Timestamp) (req : Request)
    (store : List (StoredRequest J)) : List (StoredRequest J) :=
  if !should_capture_request m cfg req then store
  else store ++ [mkRequestEntry parse cfg now req]

/-- A Playwright response object; `body_text` is what `await response.text()`
would yield (possibly an error). -/
structure ResponseEvent where
  url : String
  status : Int
  status_text : String
  headers : Headers
  body_text : Except String String

/-- The `response_data` dict built at lines 236-252: basic fields, plus the
`_is_json` marker and the deferred handle when the body is to be captured and
the response looks like JSON (content-type contains "json", case-insensitive,
or the URL ends in ".json"). -/
def mkResponseData (J : Type) (cfg : CaptureConfig) (now : Timestamp)
    (resp : ResponseEvent) : StoredResponse J :=
  let base : StoredResponse J :=
    { status := resp.status, statusText := resp.status_text, headers := resp.headers,
      timestamp := now, is_json := false, response_obj := none,
      body := none, bodyText := none, body_error := none }
  if cfg.capture_response_body &&
      (lowerContains "json" (headerGetD resp.headers "content-type" "")
        || resp.url.endsWith ".json") then
    { base with is_json := true, response_obj := some resp.body_text }
  else base

/-- The matching condition used by both loops of `_handle_response`:
`request.get("url") == response.url and "response" not in request`. -/
def awaitingResponse (u : String) (r : StoredRequest J) : Bool :=
  r.url == u && r.response.isNone

/-- The attaching loop of `_handle_response` (lines 254-259): set the
`response` key on the first matching entry, leaving the rest unchanged. -/
def attachFirst (u : String) (rd : StoredResponse J) :
    List (StoredRequest J) → List (StoredRequest J)
  | [] => []
  | r :: rs =>
      if awaitingResponse u r then { r with response := some rd } :: rs
      else r :: attachFirst u rd rs

/-- Model of `_handle_response` (lines 222-273): if no recorded request with the same
URL lacks a response, return the store unchanged; otherwise build the
response data and attach it to the first such entry. -/
def handle_response (cfg : CaptureConfig) (now : Timestamp) (resp : ResponseEvent)
    (store : List (StoredRequest J)) : List (StoredRequest J) :=
  if !store.any (awaitingResponse resp.url) then store
  else attachFirst resp.url (mkResponseData J cfg now resp) store

/-- The per-response body-resolution step of `_process_json_responses`
(lines 360-387): entries marked `_is_json` and carrying a `_response_obj`
handle get their body fetched and parsed (`body` on success, `bodyText` on
parse failure, `body_error` on fetch failure), and the `finally:` block
removes both marker keys in every branch.  Entries not carrying both keys
are untouched. -/
def processResponse (parse : String → Option J) (resp : StoredResponse J) :
    StoredResponse J :=
  if resp.is_json then
    match resp.response_obj with
    | some handle =>
        let stripped := { resp with is_json := false, response_obj := none }
        match handle with
        | .ok text =>
            match parse text with
            | some j => { stripped with body := some j }
            | none => { stripped with bodyText := some text }
        | .error e => { stripped with body_error := some e }
    | none => resp
  else resp

/-- One entry of the `_process_json_responses` loop. -/
def processEntry (parse : String → Option J) (r : StoredRequest J) : StoredRequest J :=
  match r.response with
  | some resp => { r with response := some (processResponse parse resp) }
  | none => r

/-- Model of `_process_json_responses` (lines 356-389), as its in-place effect on
`self.network_requests`. -/
def process_json_responses (parse : String → Option J)
    (store : List (StoredRequest J)) : List (StoredRequest J) :=
  store.map (processEntry parse)

/-- The clean copy of a stored response made at lines 430-435: only the six
allow-listed keys `status`, `statusText`, `headers`, `timestamp`, `body`,
`bodyText` are copied. -/
structure CleanResponse (J : Type) where
  status : Int
  statusText : String
  headers : Headers
  timestamp : Timestamp
  body : Option J
  bodyText : Option String
deriving DecidableEq

/-- The clean copy of a stored request made at lines 416-435: the basic
allow-listed keys plus `postData`/`postDataJSON` and the cleaned response. -/
structure CleanRequest (J : Type) where
  url : String
  method : String
  headers : Headers
  timestamp : Timestamp
  resourceType : String
  rid : Nat
  postData : Option String
  postDataJSON : Option J
  response : Option (CleanResponse J)
deriving DecidableEq

/-- The copy of lines 430-435. -/
def cleanResponse (resp : StoredResponse J) : CleanResponse J :=
  { status := resp.status, statusText := resp.statusText, headers := resp.headers,
    timestamp := resp.timestamp, body := resp.body, bodyText := resp.bodyText }

/-- The copy of lines 416-437.  (On the plain records of the model the per-entry copy
cannot raise, so the degraded `{url, method, error}` branch of lines 438-445
is unreachable.) -/
def cleanRequest (r : StoredRequest J) : CleanRequest J :=
  { url := r.url, method := r.method, headers := r.headers, timestamp := r.timestamp,
    resourceType := r.resourceType, rid := r.rid,
    postData := r.postData, postDataJSON := r.postDataJSON,
    response := r.response.map cleanResponse }

/-- The state of `self.network_requests` after a `get_network_requests` call
(the body-resolution pass mutates the store in place; an empty store returns
early at line 402). -/
def network_store_after_get (parse : String → Option J)
    (store : List (StoredRequest J)) : List (StoredRequest J) :=
  if store.isEmpty then store else process_json_responses parse store

/-- Model of `get_network_requests` (lines 391-455): resolve pending JSON bodies,
take clean copies, sort by timestamp descending (stable), slice `[:last_n]`,
and re-sort ascending. -/
def get_network_requests (parse : String → Option J)
    (store : List (StoredRequest J)) (last_n : Int) : List (CleanRequest J) :=
  if store.isEmpty then []
  else
    sortAsc (fun c => c.timestamp)
      (pySlice last_n
        (sortDesc (fun c => c.timestamp)
          ((process_json_responses parse store).map cleanRequest)))

/-! ### Session lifecycle (`close`, lines 98-119) -/

/-- The manager's state, with the opaque Playwright handles reduced to their
presence (`self.page`, `self.browser`, `self.playwright` being non-`None`). -/
structure ManagerState (J : Type) where
  has_playwright : Bool
  has_browser : Bool
  has_page : Bool
  console_logs : List LogEntry
  network_requests : List (StoredRequest J)
  is_initialized : Bool
  request_capture_config : CaptureConfig
deriving DecidableEq

/-- The external teardown calls `close` awaits, in order. -/
inductive TeardownStep
  | closePage
  | closeBrowser
  | stopPlaywright
deriving DecidableEq

/-- Model of `close` (lines 98-119): close page/browser/playwright, each only if
present, then reset the flag and empty both buffers.  The second component
is the list of external teardown calls performed. -/
def close (s : ManagerState J) : ManagerState J × List TeardownStep :=
  ({ s with has_page := false, has_browser := false, has_playwright := false,
            is_initialized := false, console_logs := [], network_requests := [] },
   (if s.has_page then [TeardownStep.closePage] else []) ++
     (if s.has_browser then [TeardownStep.closeBrowser] else []) ++
     (if s.has_playwright then [TeardownStep.stopPlaywright] else []))

/-- A recorded request that already carries a response (for the C3 witness). -/
def sampleDone : StoredRequest Nat :=
  { url := "u", method := "GET", headers := [], timestamp := 1, resourceType := "xhr",
    rid := 1, postData := none, postDataJSON := none,
    response := some { status := 200, statusText := "OK", headers := [], timestamp := 2,
                       is_json := false, response_obj := none, body := none,
                       bodyText := none, body_error := none } }

/-- The first unmatched same-URL entry (for the C3 witness). -/
def sampleAwaitA : StoredRequest Nat :=
  { url := "u", method := "GET", headers := [], timestamp := 3, resourceType := "xhr",
    rid := 2, postData := none, postDataJSON := none, response := none }

/-- A later unmatched same-URL entry (for the C3 witness). -/
def sampleAwaitB : StoredRequest Nat :=
  { url := "u", method := "GET", headers := [], timestamp := 4, resourceType := "xhr",
    rid := 3, postData := none, postDataJSON := none, response := none }

/-- A response event for URL "u" (for the C3 witness). -/
def sampleRespEvt : ResponseEvent :=
  { url := "u", status := 201, status_text := "Created", headers := [],
    body_text := .ok "" }

/-- A stored response still carrying the deferred-body handle, whose fetch
fails (for the C7 witness). -/
def pendingResp : StoredResponse Nat :=
  { status := 200, statusText := "OK",
    headers := [("content-type", "application/json")], timestamp := 2,
    is_json := true, response_obj := some (.error "net fail"),
    body := none, bodyText := none, body_error := none }

/-- A stored request whose response still carries the deferred-body handle
(for the C7 witness). -/
def pendingEntry : StoredRequest Nat :=
  { url := "u", method := "GET", headers := [], timestamp := 1,
    resourceType := "xhr", rid := 4, postData := none, postDataJSON := none,
    response := some pendingResp }

/-! ### Helper lemmas -/

theorem awaitingResponse_iff (u : String) (r : StoredRequest J) :
    awaitingResponse u r = true ↔ r.url = u ∧ r.response = none := by
  simp [awaitingResponse, Option.isNone_iff_eq_none]

theorem handle_response_no_match (cfg : CaptureConfig) (now : Timestamp)
    (resp : ResponseEvent) (store : List (StoredRequest J))
    (h : ∀ r ∈ store, ¬(r.url = resp.url ∧ r.response = none)) :
    handle_response cfg now resp store = store := by
  unfold handle_response
  have hany : store.any (awaitingResponse resp.url) = false := by
    rw [List.any_eq_false]
    intro r hr
    rw [awaitingResponse_iff]
    exact h r hr
  rw [hany]
  simp

theorem attachFirst_length (u : String) (rd : StoredResponse J) :
    ∀ store : List (StoredRequest J), (attachFirst u rd store).length = store.length
  | [] => rfl
  | r :: rs => by
      unfold attachFirst
      by_cases ha : awaitingResponse u r = true
      · simp [ha]
      · simp [ha, attachFirst_length u rd rs]

theorem attachFirst_append_first (u : String) (rd : StoredResponse J)
    (pre : List (StoredRequest J)) (r : StoredRequest J) (post : List (StoredRequest J))
    (hpre : ∀ r' ∈ pre, awaitingResponse u r' = false)
    (hr : awaitingResponse u r = true) :
    attachFirst u rd (pre ++ r :: post) =
      pre ++ { r with response := some rd } :: post := by
  induction pre with
  | nil => simp [attachFirst, hr]
  | cons a as ih =>
      have ha := hpre a (List.mem_cons_self a as)
      have ih' := ih fun x hx => hpre x (List.mem_cons_of_mem a hx)
      simp [attachFirst, ha, ih']

theorem attachFirst_getElem?_of_isSome (u : String) (rd : StoredResponse J) :
    ∀ (store : List (StoredRequest J)) (i : Nat) (r₀ : StoredRequest J),
      store[i]? = some r₀ → r₀.response.isSome = true →
      (attachFirst u rd store)[i]? = some r₀
  | [], i, r₀, h, _ => by simp at h
  | r :: rs, i, r₀, h, hs => by
      unfold attachFirst
      by_cases ha : awaitingResponse u r = true
      · rw [if_pos ha]
        cases i with
        | zero =>
            exfalso
            simp only [List.getElem?_cons_zero, Option.some.injEq] at h
            subst h
            have hn := ((awaitingResponse_iff u r).mp ha).2
            rw [hn] at hs
            simp at hs
        | succ n => simpa using h
      · rw [if_neg ha]
        cases i with
        | zero => simpa using h
        | succ n =>
            have := attachFirst_getElem?_of_isSome u rd rs n r₀ (by simpa using h) hs
            simpa using this

/-- The spec's own two-entry example: entries `(info,"a",1)`, `(info,"a",2)`,
`(warn,"b",3)` deduplicate to the two groups the spec lists. -/
theorem dedup_spec_example :
    get_console_logs
      [⟨"info", "a", some "L", 1⟩, ⟨"info", "a", some "L", 2⟩, ⟨"warn", "b", some "L", 3⟩] 10 =
      [⟨"info", "a (重复 2 次)", some "L", 1, 2, [1, 2]⟩, ⟨"warn", "b", some "L", 3, 1, [3]⟩] := by
  decide

/-! ### Claims -/

/-- C1: the claim says every maximal run of `k ≥ 2` identical `(type, text)`
console entries collapses into a single group with `count = k`.  The code
violates this for `k = 3`: because the grouping comparison reads the group's
rewritten display text, a run of three identical entries yields two groups
(`count = 2`, then `count = 1`).  This theorem evaluates `get_console_logs`
at that failing input. -/
theorem c1_dedup_eval :
    get_console_logs
      [⟨"info", "a", some "L", 1⟩, ⟨"info", "a", some "L", 2⟩, ⟨"info", "a", some "L", 3⟩] 10 =
      [⟨"info", "a (重复 2 次)", some "L", 1, 2, [1, 2]⟩,
       ⟨"info", "a", some "L", 3, 1, [3]⟩] := by
  decide

/-- C5: a response whose URL matches no recorded request entry lacking a
response leaves the request store completely unchanged. -/
theorem c5_unmatched_response_dropped (cfg : CaptureConfig) (now : Timestamp)
    (resp : ResponseEvent) (store : List (StoredRequest J))
    (h : ∀ r ∈ store, ¬(r.url = resp.url ∧ r.response = none)) :
    handle_response cfg now resp store = store :=
  handle_response_no_match cfg now resp store h

/-- Witness for C5: a store holding one entry with a different URL and one
same-URL entry that already carries a response; the response is dropped. -/
theorem c5_unmatched_response_dropped_witness :
    handle_response (J := Nat) defaultCaptureConfig 9
      { url := "http://b", status := 200, status_text := "OK", headers := [],
        body_text := .ok "" }
      [{ url := "http://a", method := "GET", headers := [], timestamp := 1,
         resourceType := "xhr", rid := 1, postData := none, postDataJSON := none,
         response := none },
       { url := "http://b", method := "GET", headers := [], timestamp := 2,
         resourceType := "xhr", rid := 2, postData := none, postDataJSON := none,
         response := some { status := 200, statusText := "OK", headers := [],
                            timestamp := 3, is_json := false, response_obj := none,
                            body := none, bodyText := none, body_error := none } }] =
      [{ url := "http://a", method := "GET", headers := [], timestamp := 1,
         resourceType := "xhr", rid := 1, postData := none, postDataJSON := none,
         response := none },
       { url := "http://b", method := "GET", headers := [], timestamp := 2,
         resourceType := "xhr", rid := 2, postData := none, postDataJSON := none,
         response := some { status := 200, statusText := "OK", headers := [],
                            timestamp := 3, is_json := false, response_obj := none,
                            body := none, bodyText := none, body_error := none } }] :=
  c5_unmatched_response_dropped _ _ _ _ (by decide)

/-- C6 counterexample: when reading the console message's fields fails, the
appended degraded record does not carry the original entry's type and text —
it has type `"error"` and the error message as text, unlike what the claim
states. -/
theorem c6_degraded_record_counterexample :
    handle_console_message ⟨.ok "info", .ok "hello", .error "boom"⟩ 5 [] =
      [{ type := "error", text := "处理控制台消息时出错: boom", location := none,
         timestamp := 5 }] ∧
    ("处理控制台消息时出错: boom" : String) ≠ "hello" ∧
    ("error" : String) ≠ "info" := by
  refine ⟨rfl, by decide, by decide⟩

/-- C6 amended: the console handler never raises — it is a total function
that always appends exactly one record — and when reading the entry's fields
fails it appends a degraded record with type `"error"`, text
`"处理控制台消息时出错: "` followed by the error message, and the current
timestamp (the original entry's type and text are not preserved). -/
theorem c6_console_handler_amended (m : ConsoleMsg) (now : Timestamp)
    (logs : List LogEntry) :
    (∃ e, handle_console_message m now logs = logs ++ [e]) ∧
    (∀ e, buildConsoleEntry m now = .ok e →
      handle_console_message m now logs = logs ++ [e]) ∧
    (∀ err, buildConsoleEntry m now = .error err →
      handle_console_message m now logs =
        logs ++ [{ type := "error", text := "处理控制台消息时出错: " ++ err,
                   location := none, timestamp := now }]) := by
  cases hb : buildConsoleEntry m now with
  | ok e =>
      refine ⟨⟨e, by simp [handle_console_message, hb]⟩, ?_, ?_⟩
      · intro e' he
        cases he
        simp [handle_console_message, hb]
      · intro err he
        exact Except.noConfusion he
  | error err =>
      refine ⟨⟨{ type := "error", text := "处理控制台消息时出错: " ++ err,
                 location := none, timestamp := now }, by simp [handle_console_message, hb]⟩,
        ?_, ?_⟩
      · intro e' he
        exact Except.noConfusion he
      · intro err' he
        cases he
        simp [handle_console_message, hb]

/-- Witness for C6 amended, at a message whose `location` accessor raises. -/
theorem c6_console_handler_amended_witness :
    handle_console_message ⟨.ok "info", .ok "hello", .error "x"⟩ 7 [] =
      [] ++ [{ type := "error", text := "处理控制台消息时出错: " ++ "x",
               location := none, timestamp := 7 }] :=
  (c6_console_handler_amended ⟨.ok "info", .ok "hello", .error "x"⟩ 7 []).2.2 "x" rfl

/-- C8: the close operation is idempotent — a second call returns the same state, and
performs no external teardown calls at all (so it cannot raise) — and after
any call both buffers are empty and the retrieval operations return empty
sequences. -/
theorem c8_close_idempotent_and_clears (J : Type) (parse : String → Option J)
    (s : ManagerState J) :
    close (close s).1 = ((close s).1, []) ∧
    (close s).1.console_logs = [] ∧
    (close s).1.network_requests = [] ∧
    get_network_requests parse (close s).1.network_requests 100 = [] ∧
    get_console_logs (close s).1.console_logs 100 = [] :=
  ⟨rfl, rfl, rfl, rfl, rfl⟩

/-- C9: a captured request whose `postData` is a non-empty string that
parses as JSON, under a content-type containing "json" and with
`capture_post_data` enabled, is recorded with `postDataJSON` equal to the
parse of the stored `postData` — the stored pair is parse-related, which is
the round-trip identity. -/
theorem c9_post_data_roundtrip {J : Type} (parse : String → Option J)
    (m : String → String → Bool) (cfg : CaptureConfig) (now : Timestamp)
    (req : Request) (store : List (StoredRequest J)) (s : String) (j : J)
    (hcap : cfg.capture_post_data = true)
    (hpd : req.post_data = some s) (hne : s ≠ "")
    (hct : lowerContains "json" (headerGetD req.headers "content-type" "") = true)
    (hparse : parse s = some j)
    (hfilter : should_capture_request m cfg req = true) :
    ∃ e, handle_request parse m cfg now req store = store ++ [e] ∧
      e.postData = some s ∧ e.postDataJSON = some j ∧
      ∀ s' j', e.postData = some s' → e.postDataJSON = some j' → parse s' = some j' := by
  have hbne : (s != "") = true := by simpa [bne_iff_ne] using hne
  have he : mkRequestEntry parse cfg now req =
      { url := req.url, method := req.method, headers := req.headers, timestamp := now,
        resourceType := req.resource_type, rid := req.rid,
        postData := some s, postDataJSON := some j, response := none } := by
    simp [mkRequestEntry, hpd, hcap, hbne, hct, hparse]
  refine ⟨mkRequestEntry parse cfg now req, ?_, ?_, ?_, ?_⟩
  · unfold handle_request
    rw [hfilter]
    simp
  · rw [he]
  · rw [he]
  · intro s' j' h1 h2
    rw [he] at h1 h2
    cases h1
    cases h2
    exact hparse

/-- Witness for C9: a concrete JSON POST request is recorded with its parsed
payload. -/
theorem c9_post_data_roundtrip_witness :
    ∃ e, handle_request (J := Nat) (fun t => if t = "1" then some 1 else none)
        (fun _ _ => true) defaultCaptureConfig 4
        { url := "http://a", method := "POST",
          headers := [("content-type", "application/json")],
          resource_type := "xhr", post_data := some "1", rid := 1 } [] =
        [] ++ [e] ∧
      e.postData = some "1" ∧ e.postDataJSON = some 1 ∧
      ∀ s' j', e.postData = some s' → e.postDataJSON = some j' →
        (fun t => if t = "1" then some 1 else none) s' = some j' :=
  c9_post_data_roundtrip _ _ _ _ _ _ _ _ rfl rfl (by decide) (by decide) (by decide)
    (by decide)

/-- C10 counterexample: with `last_n = -1` and a console store of two
entries (more than `k = 1` entries), `get_console_logs` returns the empty
sequence, because the slice is applied to the deduplicated groups and the
two identical entries collapse into one group. -/
theorem c10_console_negative_slice_counterexample :
    ([(⟨"info", "a", some "L", 1⟩ : LogEntry), ⟨"info", "a", some "L", 2⟩].length = 2) ∧
    get_console_logs [⟨"info", "a", some "L", 1⟩, ⟨"info", "a", some "L", 2⟩] (-1) = [] := by
  refine ⟨rfl, by decide⟩

/-- C2: the capture filter implements exactly the spec's decision cascade
(disabled ⇒ reject; `include_types` non-empty without membership ⇒ reject;
membership in `exclude_types` ⇒ reject; `include_patterns` non-empty with no
match ⇒ reject; any `exclude_patterns` match ⇒ reject; otherwise accept), for
every abstract regex matcher; and with `enabled = false` no request is ever
appended to the store, regardless of all other filter fields. -/
theorem c2_capture_filter (m : String → String → Bool) (cfg : CaptureConfig)
    (req : Request) :
    should_capture_request m cfg req = shouldCaptureSpec m cfg req.url req.resource_type ∧
    (cfg.enabled = false →
      ∀ (J : Type) (parse : String → Option J) (now : Timestamp)
        (store : List (StoredRequest J)),
        handle_request parse m cfg now req store = store) := by
  constructor
  · unfold should_capture_request shouldCaptureSpec
    by_cases h1 : cfg.enabled = false
    · simp [h1]
    · have h1' : cfg.enabled = true := by revert h1; cases cfg.enabled <;> simp
      by_cases h2 : cfg.include_types ≠ [] ∧ req.resource_type ∉ cfg.include_types
      · simp [h1', h2]
      · by_cases h3 : req.resource_type ∈ cfg.exclude_types
        · simp [h1', h2, h3]
        · by_cases h4 : cfg.include_patterns ≠ [] ∧
              ∀ p ∈ cfg.include_patterns, m p req.url = false
          · simp [h1', h2, h3, h4]
          · by_cases h5 : ∃ p ∈ cfg.exclude_patterns, m p req.url = true
            · simp [h1', h2, h3, h4, h5]
            · simp [h1', h2, h3, h4, h5]
  · intro hdis J parse now store
    unfold handle_request
    have hf : should_capture_request m cfg req = false := by
      unfold should_capture_request
      simp [hdis]
    rw [hf]
    simp

/-- Witness for C2, at a configuration with `enabled = false` and exercising
both conjuncts on a concrete request. -/
theorem c2_capture_filter_witness :
    (should_capture_request (fun _ _ => true)
        { defaultCaptureConfig with enabled := false }
        { url := "http://a", method := "GET", headers := [], resource_type := "xhr",
          post_data := none, rid := 1 } =
      shouldCaptureSpec (fun _ _ => true) { defaultCaptureConfig with enabled := false }
        "http://a" "xhr") ∧
    handle_request (J := Nat) (fun _ => none) (fun _ _ => true)
      { defaultCaptureConfig with enabled := false } 3
      { url := "http://a", method := "GET", headers := [], resource_type := "xhr",
        post_data := none, rid := 1 } [] = [] :=
  ⟨(c2_capture_filter (fun _ _ => true) { defaultCaptureConfig with enabled := false }
      { url := "http://a", method := "GET", headers := [], resource_type := "xhr",
        post_data := none, rid := 1 }).1,
   (c2_capture_filter (fun _ _ => true) { defaultCaptureConfig with enabled := false }
      { url := "http://a", method := "GET", headers := [], resource_type := "xhr",
        post_data := none, rid := 1 }).2 rfl Nat (fun _ => none) 3 []⟩

/-- C3: handling a response attaches it to the earliest recorded entry with
the exact same URL string that does not yet carry a response, leaving every
other entry unchanged (FIFO per URL); the store keeps its length; and an
entry whose response is already set is never overwritten by a later
response. -/
theorem c3_response_correlation (cfg : CaptureConfig) (now : Timestamp)
    (resp : ResponseEvent) (store : List (StoredRequest J)) :
    ((∀ r ∈ store, ¬(r.url = resp.url ∧ r.response = none)) →
        handle_response cfg now resp store = store) ∧
    (∀ pre r post,
        store = pre ++ r :: post → r.url = resp.url → r.response = none →
        (∀ r' ∈ pre, ¬(r'.url = resp.url ∧ r'.response = none)) →
        handle_response cfg now resp store =
          pre ++ { r with response := some (mkResponseData J cfg now resp) } :: post) ∧
    (handle_response cfg now resp store).length = store.length ∧
    (∀ (i : Nat) (r₀ : StoredRequest J), store[i]? = some r₀ →
        r₀.response.isSome = true →
        (handle_response cfg now resp store)[i]? = some r₀) := by
  refine ⟨handle_response_no_match cfg now resp store, ?_, ?_, ?_⟩
  · intro pre r post hstore hurl hresp hpre
    subst hstore
    have hr : awaitingResponse resp.url r = true :=
      (awaitingResponse_iff _ _).mpr ⟨hurl, hresp⟩
    have hany : (pre ++ r :: post).any (awaitingResponse resp.url) = true :=
      List.any_eq_true.mpr ⟨r, List.mem_append_right pre (List.mem_cons_self r post), hr⟩
    have hfalse : ∀ r' ∈ pre, awaitingResponse resp.url r' = false := by
      intro r' hr'
      cases hb : awaitingResponse resp.url r' with
      | false => rfl
      | true => exact absurd ((awaitingResponse_iff _ _).mp hb) (hpre r' hr')
    unfold handle_response
    rw [hany]
    simpa using attachFirst_append_first resp.url (mkResponseData J cfg now resp)
      pre r post hfalse hr
  · unfold handle_response
    by_cases hany : store.any (awaitingResponse resp.url) = true
    · rw [hany]
      simp [attachFirst_length]
    · simp only [Bool.not_eq_true] at hany
      rw [hany]
      simp
  · intro i r₀ hi hs
    unfold handle_response
    by_cases hany : store.any (awaitingResponse resp.url) = true
    · rw [hany]
      simpa using attachFirst_getElem?_of_isSome resp.url
        (mkResponseData J cfg now resp) store i r₀ hi hs
    · simp only [Bool.not_eq_true] at hany
      rw [hany]
      simpa using hi


/-- Witness for C3: with an already-matched entry first, the response is
attached to the earliest unmatched same-URL entry, and the matched entry at
index 0 is untouched. -/
theorem c3_response_correlation_witness :
    (handle_response defaultCaptureConfig 5 sampleRespEvt
        [sampleDone, sampleAwaitA, sampleAwaitB] =
      [sampleDone,
       { sampleAwaitA with
          response := some (mkResponseData Nat defaultCaptureConfig 5 sampleRespEvt) },
       sampleAwaitB]) ∧
    (handle_response defaultCaptureConfig 5 sampleRespEvt
        [sampleDone, sampleAwaitA, sampleAwaitB])[0]? = some sampleDone :=
  ⟨(c3_response_correlation defaultCaptureConfig 5 sampleRespEvt
      [sampleDone, sampleAwaitA, sampleAwaitB]).2.1 [sampleDone] sampleAwaitA
      [sampleAwaitB] rfl rfl rfl (by decide),
   (c3_response_correlation defaultCaptureConfig 5 sampleRespEvt
      [sampleDone, sampleAwaitA, sampleAwaitB]).2.2.2 0 sampleDone rfl rfl⟩

theorem sortAsc_sorted (f : α → ℚ) (l : List α) : List.Sorted (keyLe f) (sortAsc f l) :=
  List.sorted_insertionSort (keyLe f) l

theorem sortAsc_perm (f : α → ℚ) (l : List α) : (sortAsc f l).Perm l :=
  List.perm_insertionSort (keyLe f) l

theorem sortDesc_sorted (f : α → ℚ) (l : List α) : List.Sorted (keyGe f) (sortDesc f l) :=
  List.sorted_insertionSort (keyGe f) l

theorem sortDesc_perm (f : α → ℚ) (l : List α) : (sortDesc f l).Perm l :=
  List.perm_insertionSort (keyGe f) l

theorem trunc_subset (f : α → ℚ) (l : List α) (n : Int) :
    ∀ x ∈ sortAsc f (pySlice n (sortDesc f l)), x ∈ l := by
  intro x hx
  have hx1 : x ∈ pySlice n (sortDesc f l) := (sortAsc_perm f _).mem_iff.mp hx
  have hx2 : x ∈ sortDesc f l := by
    unfold pySlice at hx1
    split at hx1
    · exact List.mem_of_mem_take hx1
    · exact List.mem_of_mem_take hx1
  exact (sortDesc_perm f l).mem_iff.mp hx2

theorem trunc_nonneg_length (f : α → ℚ) (l : List α) (n : Nat) :
    (sortAsc f (pySlice (n : Int) (sortDesc f l))).length ≤ n := by
  rw [(sortAsc_perm f _).length_eq]
  unfold pySlice
  rw [if_pos (Int.natCast_nonneg n)]
  rw [List.length_take]
  omega

theorem trunc_neg_spec (f : α → ℚ) (l : List α) (k : Nat) (hk0 : 0 < k)
    (hk : k ≤ l.length) :
    (sortAsc f (pySlice (-(k : Int)) (sortDesc f l))).length = l.length - k ∧
    ∃ dropped : List α, dropped.length = k ∧
      (sortAsc f (pySlice (-(k : Int)) (sortDesc f l)) ++ dropped).Perm l ∧
      ∀ d ∈ dropped, ∀ c ∈ sortAsc f (pySlice (-(k : Int)) (sortDesc f l)), f d ≤ f c := by
  have hlen : (sortDesc f l).length = l.length := (sortDesc_perm f l).length_eq
  have hslice : pySlice (-(k : Int)) (sortDesc f l) = (sortDesc f l).take (l.length - k) := by
    unfold pySlice
    rw [if_neg (by omega)]
    rw [hlen]
    congr 1
    omega
  constructor
  · rw [hslice, (sortAsc_perm f _).length_eq, List.length_take, hlen]
    omega
  · refine ⟨(sortDesc f l).drop (l.length - k), ?_, ?_, ?_⟩
    · rw [List.length_drop, hlen]
      omega
    · rw [hslice]
      refine ((sortAsc_perm f _).append_right _).trans ?_
      rw [List.take_append_drop]
      exact sortDesc_perm f l
    · intro d hd c hc
      have hpw : List.Pairwise (keyGe f)
          ((sortDesc f l).take (l.length - k) ++ (sortDesc f l).drop (l.length - k)) := by
        rw [List.take_append_drop]
        exact sortDesc_sorted f l
      have hc' : c ∈ (sortDesc f l).take (l.length - k) := by
        rw [hslice] at hc
        exact (sortAsc_perm f _).mem_iff.mp hc
      exact (List.pairwise_append.mp hpw).2.2 c hc' d hd

/-- C4: `get_network_requests(N)` returns at most `N` entries, in ascending
timestamp order, and every returned entry is the clean copy of a
processed entry of the store. -/
theorem c4_get_network_requests_bounded {J : Type} (parse : String → Option J)
    (store : List (StoredRequest J)) (n : Nat) :
    (get_network_requests parse store (n : Int)).length ≤ n ∧
    List.Sorted (keyLe fun c => c.timestamp) (get_network_requests parse store (n : Int)) ∧
    ∀ c ∈ get_network_requests parse store (n : Int),
      ∃ r ∈ store, c = cleanRequest (processEntry parse r) := by
  unfold get_network_requests
  by_cases hemp : store.isEmpty
  · rw [if_pos hemp]
    exact ⟨by simp, List.sorted_nil, by simp⟩
  · rw [if_neg hemp]
    refine ⟨trunc_nonneg_length _ _ n, sortAsc_sorted _ _, ?_⟩
    intro c hc
    have hmem := trunc_subset (fun c : CleanRequest J => c.timestamp)
      ((process_json_responses parse store).map cleanRequest) (n : Int) c hc
    rw [process_json_responses] at hmem
    rcases List.mem_map.mp hmem with ⟨y, hy, hyc⟩
    rcases List.mem_map.mp hy with ⟨r, hr, hry⟩
    exact ⟨r, hr, by rw [← hyc, ← hry]⟩

/-- Witness for C4 on a one-entry store with `N = 2`. -/
theorem c4_get_network_requests_bounded_witness :
    (get_network_requests (J := Nat) (fun _ => none) [sampleAwaitA]
        ((2 : Nat) : Int)).length ≤ 2 ∧
    ∃ r ∈ [sampleAwaitA],
      cleanRequest (processEntry (J := Nat) (fun _ => none) sampleAwaitA) =
        cleanRequest (processEntry (fun _ => none) r) :=
  ⟨(c4_get_network_requests_bounded (fun _ => none) [sampleAwaitA] 2).1,
   (c4_get_network_requests_bounded (fun _ => none) [sampleAwaitA] 2).2.2
     (cleanRequest (processEntry (fun _ => none) sampleAwaitA)) (by decide)⟩

theorem processResponse_strips (parse : String → Option J) (resp : StoredResponse J)
    (h : resp.is_json = resp.response_obj.isSome) :
    (processResponse parse resp).is_json = false ∧
    (processResponse parse resp).response_obj = none := by
  cases hij : resp.is_json with
  | false =>
      have ho : resp.response_obj = none := by
        rw [hij] at h
        cases ho : resp.response_obj with
        | none => rfl
        | some hdl => rw [ho] at h; simp at h
      simp [processResponse, hij, ho]
  | true =>
      obtain ⟨hdl, ho⟩ : ∃ hdl, resp.response_obj = some hdl := by
        rw [hij] at h
        cases ho : resp.response_obj with
        | none => rw [ho] at h; simp at h
        | some hdl => exact ⟨hdl, rfl⟩
      cases hdl with
      | ok text => cases hp : parse text <;> simp [processResponse, hij, ho, hp]
      | error e => simp [processResponse, hij, ho]

/-- C7: provided every stored response's pending-handle marker pair is
consistent (`_is_json` set exactly when `_response_obj` is present — which is
how `_handle_response` constructs it, the third conjunct), after the
body-resolution pass of `get_network_requests` every stored response has
both pending-handle fields removed, whether resolution succeeded or failed,
and every snapshot entry is the clean allow-listed copy of a processed
stored entry (the clean copy carries no handle fields at all). -/
theorem c7_no_handles_in_snapshot {J : Type} (parse : String → Option J)
    (store : List (StoredRequest J)) (n : Int)
    (hinv : ∀ r ∈ store, ∀ resp, r.response = some resp →
      resp.is_json = resp.response_obj.isSome) :
    (∀ r ∈ network_store_after_get parse store, ∀ resp, r.response = some resp →
      resp.is_json = false ∧ resp.response_obj = none) ∧
    (∀ c ∈ get_network_requests parse store n,
      ∃ r ∈ network_store_after_get parse store, c = cleanRequest r) ∧
    (∀ (cfg : CaptureConfig) (now : Timestamp) (re : ResponseEvent),
      (mkResponseData J cfg now re).is_json =
        (mkResponseData J cfg now re).response_obj.isSome) := by
  refine ⟨?_, ?_, ?_⟩
  · intro r hr resp hresp
    unfold network_store_after_get at hr
    by_cases hemp : store.isEmpty
    · rw [if_pos hemp] at hr
      rw [List.isEmpty_iff.mp hemp] at hr
      simp at hr
    · rw [if_neg hemp] at hr
      rcases List.mem_map.mp hr with ⟨r0, hr0, hre⟩
      subst hre
      cases h0 : r0.response with
      | none =>
          have hre2 : processEntry parse r0 = r0 := by
            unfold processEntry
            rw [h0]
          rw [hre2, h0] at hresp
          exact Option.noConfusion hresp
      | some resp0 =>
          have hre2 : processEntry parse r0 =
              { r0 with response := some (processResponse parse resp0) } := by
            unfold processEntry
            rw [h0]
          rw [hre2] at hresp
          simp only [Option.some.injEq] at hresp
          subst hresp
          exact processResponse_strips parse resp0 (hinv r0 hr0 resp0 h0)
  · intro c hc
    unfold get_network_requests at hc
    by_cases hemp : store.isEmpty
    · rw [if_pos hemp] at hc
      simp at hc
    · rw [if_neg hemp] at hc
      have hmem := trunc_subset (fun c : CleanRequest J => c.timestamp)
        ((process_json_responses parse store).map cleanRequest) n c hc
      rcases List.mem_map.mp hmem with ⟨r, hr, hrc⟩
      refine ⟨r, ?_, hrc.symm⟩
      unfold network_store_after_get
      rw [if_neg hemp]
      exact hr
  · intro cfg now re
    unfold mkResponseData
    by_cases hcond : (cfg.capture_response_body &&
        (lowerContains "json" (headerGetD re.headers "content-type" "")
          || re.url.endsWith ".json")) = true
    · rw [if_pos hcond]
      rfl
    · rw [if_neg hcond]
      rfl


/-- Witness for C7: a store whose single entry still carries a failing
deferred-body handle; after the pass the handle fields are gone even though
resolution failed, the snapshot entry is a clean copy, and the constructed
response data satisfies the marker invariant. -/
theorem c7_no_handles_in_snapshot_witness :
    ((processResponse (J := Nat) (fun _ => none) pendingResp).is_json = false ∧
     (processResponse (J := Nat) (fun _ => none) pendingResp).response_obj = none) ∧
    (∃ r ∈ network_store_after_get (J := Nat) (fun _ => none) [pendingEntry],
       cleanRequest (processEntry (J := Nat) (fun _ => none) pendingEntry) =
         cleanRequest r) ∧
    (mkResponseData Nat defaultCaptureConfig 1 sampleRespEvt).is_json =
      (mkResponseData Nat defaultCaptureConfig 1 sampleRespEvt).response_obj.isSome := by
  have hinv : ∀ r ∈ [pendingEntry], ∀ resp, r.response = some resp →
      resp.is_json = resp.response_obj.isSome := by
    intro r hr resp hresp
    simp only [List.mem_singleton] at hr
    subst hr
    have h2 : some pendingResp = some resp := hresp
    cases h2
    rfl
  have h := c7_no_handles_in_snapshot (fun _ => none) [pendingEntry] 5 hinv
  exact ⟨h.1 (processEntry (fun _ => none) pendingEntry) (by decide)
      (processResponse (fun _ => none) pendingResp) rfl,
    h.2.1 (cleanRequest (processEntry (fun _ => none) pendingEntry)) (by decide),
    h.2.2 defaultCaptureConfig 1 sampleRespEvt⟩

/-- C10 amended: for `last_n = -k` (`k ≥ 1`), nothing is raised and the
negative slice keeps everything but the `k` oldest *sliced items*: for
`get_network_requests`, when the store has more than `k` entries, it returns
exactly `store.length - k` clean entries (a non-empty, ascending-by-timestamp
sequence of clean copies of processed stored entries), and the `k` excluded
ones all carry timestamps ≤ every returned one; for `get_console_logs` the
same holds with deduplicated *groups* in place of entries — the precondition
is more than `k` groups, not more than `k` raw entries (a store with more
than `k` entries but at most `k` groups returns the empty sequence, see the
counterexample). -/
theorem c10_negative_last_n_amended {J : Type} (parse : String → Option J)
    (store : List (StoredRequest J)) (logs : List LogEntry) (k : Nat)
    (hk0 : 0 < k)
    (hstore : k < store.length)
    (hlogs : k < (dedupLoop none (sortAsc (fun l => l.timestamp) logs)).length) :
    (get_network_requests parse store (-(k : Int))).length = store.length - k ∧
    get_network_requests parse store (-(k : Int)) ≠ [] ∧
    List.Sorted (keyLe fun c => c.timestamp) (get_network_requests parse store (-(k : Int))) ∧
    (∀ c ∈ get_network_requests parse store (-(k : Int)),
      ∃ r ∈ store, c = cleanRequest (processEntry parse r)) ∧
    (∃ dropped, dropped.length = k ∧
      (get_network_requests parse store (-(k : Int)) ++ dropped).Perm
        ((process_json_responses parse store).map cleanRequest) ∧
      ∀ d ∈ dropped, ∀ c ∈ get_network_requests parse store (-(k : Int)),
        d.timestamp ≤ c.timestamp) ∧
    (get_console_logs logs (-(k : Int))).length =
      (dedupLoop none (sortAsc (fun l => l.timestamp) logs)).length - k ∧
    get_console_logs logs (-(k : Int)) ≠ [] ∧
    List.Sorted (keyLe fun g => g.timestamp) (get_console_logs logs (-(k : Int))) ∧
    (∃ droppedG, droppedG.length = k ∧
      (get_console_logs logs (-(k : Int)) ++ droppedG).Perm
        (dedupLoop none (sortAsc (fun l => l.timestamp) logs)) ∧
      ∀ d ∈ droppedG, ∀ c ∈ get_console_logs logs (-(k : Int)),
        d.timestamp ≤ c.timestamp) := by
  have hsne : ¬store.isEmpty = true := by
    intro hh
    rw [List.isEmpty_iff.mp hh] at hstore
    simp at hstore
  have hlne : ¬logs.isEmpty = true := by
    intro hh
    have hz : dedupLoop none (sortAsc (fun l => l.timestamp) logs) = [] := by
      rw [List.isEmpty_iff.mp hh]
      rfl
    rw [hz] at hlogs
    simp at hlogs
  have hclen : ((process_json_responses parse store).map cleanRequest).length =
      store.length := by
    simp [process_json_responses]
  have hunf : get_network_requests parse store (-(k : Int)) =
      sortAsc (fun c => c.timestamp)
        (pySlice (-(k : Int))
          (sortDesc (fun c => c.timestamp)
            ((process_json_responses parse store).map cleanRequest))) := by
    unfold get_network_requests
    rw [if_neg hsne]
  have hunfC : get_console_logs logs (-(k : Int)) =
      sortAsc (fun g => g.timestamp)
        (pySlice (-(k : Int))
          (sortDesc (fun g => g.timestamp)
            (dedupLoop none (sortAsc (fun l => l.timestamp) logs)))) := by
    unfold get_console_logs
    rw [if_neg hlne]
  obtain ⟨hlenN, droppedN, hdlenN, hpermN, holdN⟩ :=
    trunc_neg_spec (fun c : CleanRequest J => c.timestamp)
      ((process_json_responses parse store).map cleanRequest) k hk0
      (by rw [hclen]; omega)
  obtain ⟨hlenC, droppedC, hdlenC, hpermC, holdC⟩ :=
    trunc_neg_spec (fun g : LogGroup => g.timestamp)
      (dedupLoop none (sortAsc (fun l => l.timestamp) logs)) k hk0 (by omega)
  refine ⟨?_, ?_, ?_, ?_, ?_, ?_, ?_, ?_, ?_⟩
  · rw [hunf, hlenN, hclen]
  · have hpos : 0 < (get_network_requests parse store (-(k : Int))).length := by
      rw [hunf, hlenN, hclen]
      omega
    exact List.ne_nil_of_length_pos hpos
  · rw [hunf]
    exact sortAsc_sorted _ _
  · intro c hc
    rw [hunf] at hc
    have hmem := trunc_subset (fun c : CleanRequest J => c.timestamp)
      ((process_json_responses parse store).map cleanRequest) (-(k : Int)) c hc
    rw [process_json_responses] at hmem
    rcases List.mem_map.mp hmem with ⟨y, hy, hyc⟩
    rcases List.mem_map.mp hy with ⟨r, hr, hry⟩
    exact ⟨r, hr, by rw [← hyc, ← hry]⟩
  · refine ⟨droppedN, hdlenN, ?_, ?_⟩
    · rw [hunf]
      exact hpermN
    · intro d hd c hc
      rw [hunf] at hc
      exact holdN d hd c hc
  · rw [hunfC, hlenC]
  · have hpos : 0 < (get_console_logs logs (-(k : Int))).length := by
      rw [hunfC, hlenC]
      omega
    exact List.ne_nil_of_length_pos hpos
  · rw [hunfC]
    exact sortAsc_sorted _ _
  · refine ⟨droppedC, hdlenC, ?_, ?_⟩
    · rw [hunfC]
      exact hpermC
    · intro d hd c hc
      rw [hunfC] at hc
      exact holdC d hd c hc

/-- Witness for C10 amended: two network entries and two distinct console
entries (two groups), `last_n = -1`. -/
theorem c10_negative_last_n_amended_witness :
    (get_network_requests (J := Nat) (fun _ => none) [sampleAwaitA, sampleAwaitB]
        (-((1 : Nat) : Int))).length = [sampleAwaitA, sampleAwaitB].length - 1 ∧
    get_network_requests (J := Nat) (fun _ => none) [sampleAwaitA, sampleAwaitB]
        (-((1 : Nat) : Int)) ≠ [] ∧
    get_console_logs [⟨"info", "a", some "L", 1⟩, ⟨"warn", "b", some "L", 2⟩]
        (-((1 : Nat) : Int)) ≠ [] := by
  have h := c10_negative_last_n_amended (J := Nat) (fun _ => none)
    [sampleAwaitA, sampleAwaitB]
    [⟨"info", "a", some "L", 1⟩, ⟨"warn", "b", some "L", 2⟩] 1
    (by decide) (by decide) (by decide)
  exact ⟨h.1, h.2.1, h.2.2.2.2.2.2.1⟩
